import Mathlib

/-!
Verification of the instance-membership, mailbox and command-dispatch core
of the App Inventor game server (Python, Google App Engine).

The Python sources are shallowly embedded: entities become structures,
in-place mutation becomes explicit state passing, `put()` becomes the pure
`set_full` recomputation, and exceptions (`ValueError`, `KeyError`,
`IndexError`) become `Except String`.  Player / game / instance identifiers
are carried as already-normalized strings except where a claim is about the
normalization itself (`check_playerid`), which is embedded together with a
specialized matcher for the server's email regular expression.

Sources embedded here:
  * game_server/models/game_instance.py (`set_full`, `add_player`,
    `get_messages`, `get_messages_query`, `check_player`, `check_leader`)
  * game_server/models/game.py (`get_new_instance`)
  * game_server/server.py (`leave_instance`, `join_instance`,
    `invite_player`, `set_leader`, `server_command`, `new_instance`)
  * game_server/server_commands.py (`set_max_players_command`,
    `set_public_command`)
  * game_server/utils.py (`check_playerid`)
  * game_server/extensions/card_game.py and scoreboard.py (hands, decks,
    scores)
  * custom_modules/bulls_and_cows/bac_commands.py
  * custom_modules/androids_to_androids/ata_commands.py
    (`submit_card_command` and its helpers)
-/

/-- A JSON-serializable value, as handled by `simplejson` in the server:
handler replies and message contents are such values. -/
inductive JVal where
  | jnull : JVal
  | jbool : Bool → JVal
  | jnum : Int → JVal
  | jstr : String → JVal
  | jarr : List JVal → JVal

/-- `isinstance(reply, list)` test used by `server_command`. -/
def JVal.isArr : JVal → Bool
  | .jarr _ => true
  | _ => false

/-- The `GameInstance` Expando model (models/game_instance.py): membership,
invitation, leader, visibility and capacity state of one lobby.  `date` and
module extension fields are carried by the per-module embeddings below.
`do_not_put` models the dynamic property of the same name consulted by the
command dispatcher (absent ⇔ `false`). -/
structure GameInstance where
  players : List String
  invited : List String
  leader : String
  public : Bool
  full : Bool
  max_players : Int
  do_not_put : Bool := false
deriving Repr, DecidableEq

/-- `GameInstance.set_full`: a game is full unless `max_players` is zero or
exceeds the number of players.  `put()` always calls this first, so this is
also the embedding of a persist. -/
def set_full (i : GameInstance) : GameInstance :=
  if i.max_players = 0 ∨ i.max_players > i.players.length then
    { i with full := false }
  else
    { i with full := true }

/-- `GameInstance.check_player`: the player id (already normalized here)
must be a current member. -/
def check_player (i : GameInstance) (pid : String) : Except String String :=
  if pid ∈ i.players then .ok pid
  else .error (pid ++ " is not in instance")

/-- `GameInstance.check_leader`: the player id must equal the stored leader
(membership is not checked). -/
def check_leader (i : GameInstance) (pid : String) : Except String String :=
  if pid = i.leader then .ok pid
  else .error "You must be the leader to perform this operation."

/-- `GameInstance.add_player`: joining is idempotent for members; otherwise
the instance must be public or the player invited, and not full; the player
is appended, the invitation (if any) removed and `full` recomputed. -/
def add_player (i : GameInstance) (player : String) : Except String GameInstance :=
  if player ∉ i.players then
    if player ∉ i.invited ∧ i.public = false then
      .error (player ++ " not invited to instance.")
    else if i.full then
      .error (player ++ " could not join: instance is full")
    else
      .ok (set_full { i with invited := i.invited.erase player,
                             players := i.players ++ [player] })
  else
    .ok i

/-- `server.join_instance`, restricted to the case where the instance
exists: `add_player` followed by `instance.put()`. -/
def join_instance (i : GameInstance) (player : String) : Except String GameInstance := do
  let i' ← add_player i player
  .ok (set_full i')

/-- `server.leave_instance` (instance part): the leaver must be a member;
on departure the first remaining member inherits the leadership, and when
nobody is left `max_players` becomes the blocking sentinel `-1`; the
instance is then `put()`. -/
def leave_instance (i : GameInstance) (pid : String) : Except String GameInstance := do
  let player ← check_player i pid
  let ps := i.players.erase player
  let i₁ := { i with players := ps }
  let i₂ := if player = i₁.leader ∧ ps.length ≠ 0 then { i₁ with leader := ps.headI } else i₁
  let i₃ := if ps.length = 0 then { i₂ with max_players := -1 } else i₂
  .ok (set_full i₃)

/-- `server.invite_player` (instance part): the invitee is appended to
`invited` unless already invited or already a member; returns the invitee
echo (empty when nothing was changed). -/
def invite_player (i : GameInstance) (invitee : String) : GameInstance × String :=
  if invitee ∉ i.invited ∧ invitee ∉ i.players then
    (set_full { i with invited := i.invited ++ [invitee] }, invitee)
  else
    (i, "")

/-- `server.set_leader` (instance part): both the requester and the
candidate must be members; nothing changes (and nothing is persisted)
unless the requester is the leader and the candidate differs. -/
def set_leader (i : GameInstance) (pid cand : String) :
    Except String (GameInstance × String × Bool) := do
  let player ← check_player i pid
  let leader ← check_player i cand
  if player ≠ i.leader ∨ i.leader = leader then
    .ok (i, i.leader, false)
  else
    .ok (set_full { i with leader := leader }, leader, true)

/-- `server_commands.set_max_players_command` followed by the dispatcher's
`put()`: leader-only, stores the new bound without evicting anyone. -/
def set_max_players_op (i : GameInstance) (pid : String) (v : Int) :
    Except String GameInstance := do
  let _ ← check_leader i pid
  .ok (set_full { i with max_players := v })

/-- `server_commands.set_public_command` followed by the dispatcher's
`put()`: leader-only, toggles open joining. -/
def set_public_op (i : GameInstance) (pid : String) (v : Bool) :
    Except String GameInstance := do
  let _ ← check_leader i pid
  .ok (set_full { i with public := v })

/-- `server.new_instance` (instance part): the creator is sole member and
leader, visibility as requested, then `put()`. -/
def new_game_instance (player : String) (makePublic : Bool) : GameInstance :=
  set_full { players := [player], invited := [], leader := player,
             public := makePublic, full := false, max_players := 0 }

/-- One request against a live instance: the registry operations plus the
two built-in server commands that write membership-gating fields. -/
inductive RegistryOp where
  | join (p : String)
  | leave (p : String)
  | invite (p : String)
  | setLeader (pid cand : String)
  | setMaxPlayers (pid : String) (v : Int)
  | setPublic (pid : String) (v : Bool)
deriving Repr, DecidableEq

/-- Registry operations in the sense of the specification's §4.2 (the two
built-in server commands are dispatched commands, not registry calls). -/
def RegistryOp.isRegistry : RegistryOp → Bool
  | .join _ | .leave _ | .invite _ | .setLeader _ _ => true
  | .setMaxPlayers _ _ | .setPublic _ _ => false

/-- Whether an operation is the `sys_set_max_players` server command. -/
def RegistryOp.isSetMaxPlayers : RegistryOp → Bool
  | .setMaxPlayers _ _ => true
  | _ => false

/-- The state `leave_instance` leaves behind once the last member departs:
no players, the negative blocking sentinel, and (after the `put()`) the
`full` flag set. -/
abbrev deadInstance (s : GameInstance) : Prop :=
  s.players = [] ∧ s.max_players < 0 ∧ s.full = true

/-- Dispatch one operation against an instance. -/
def applyOp (i : GameInstance) : RegistryOp → Except String GameInstance
  | .join p => join_instance i p
  | .leave p => leave_instance i p
  | .invite p => .ok (invite_player i p).1
  | .setLeader pid cand => (set_leader i pid cand).map (·.1)
  | .setMaxPlayers pid v => set_max_players_op i pid v
  | .setPublic pid v => set_public_op i pid v

/-- Run a sequence of requests; a failed request aborts its transaction, so
the state is unchanged on error. -/
def runOps (i : GameInstance) (ops : List RegistryOp) : GameInstance :=
  ops.foldl (fun s op => match applyOp s op with
    | .ok s' => s'
    | .error _ => s) i

/-! ### Mailbox: the `Message` model and its queries -/

/-- The `Message` model (models/message.py): one unit of mailbox
communication, a child of its `GameInstance`.  `date` is the creation
timestamp (modeled as a natural number), the sole ordering and filter
key.  `content` is kept as its stored JSON string. -/
structure Message where
  sender : String
  msg_type : String
  recipient : String
  date : Nat
  content : String
deriving Repr, DecidableEq

/-- The datastore's `order('-date')`: newest first.  The sort itself is
embedded as a stable structural sort (`List.insertionSort`). -/
def byDateDesc (a b : Message) : Prop := b.date ≤ a.date

instance : DecidableRel byDateDesc := fun a b => Nat.decLe b.date a.date

instance : IsTotal Message byDateDesc := ⟨fun a b => Nat.le_total b.date a.date⟩

instance : IsTrans Message byDateDesc := ⟨fun _ _ _ hab hbc => Nat.le_trans hbc hab⟩

/-- `GameInstance.get_messages_query` applied to the instance's child
messages `msgs`: filter `date > time`, then the type filter (skipped when
empty), then the optional sender filter, then the recipient filter (only
broadcast when `recipient` is empty; `recipient = r` when keys-only;
`recipient IN [r, '']` otherwise), ordered newest first. -/
def get_messages_query (msgs : List Message) (message_type recipient : String)
    (time : Nat) (sender : Option String) (keys_only : Bool) : List Message :=
  let q := msgs.filter (fun m => decide (time < m.date))
  let q := if message_type ≠ "" then q.filter (fun m => m.msg_type = message_type) else q
  let q : List Message := match sender with
    | some s => q.filter (fun m => m.sender = s)
    | none => q
  let q :=
    if recipient = "" then q.filter (fun m => m.recipient = "")
    else if keys_only then q.filter (fun m => m.recipient = recipient)
    else q.filter (fun m => m.recipient = recipient ∨ m.recipient = "")
  List.insertionSort byDateDesc q

/-- `GameInstance.get_messages`: fetch the newest `count` matches of the
query and reverse them so the first element is the oldest of the fetched
window. -/
def get_messages (msgs : List Message) (time : Nat) (count : Nat)
    (message_type recipient : String) : List Message :=
  ((get_messages_query msgs message_type recipient time none false).take count).reverse

/-- The specification's own wording of `fetch` (§4.3): messages that are
(type matches, or all types if empty) and (recipient matches the given
player or recipient is the broadcast empty string) and (created after
`time`); the newest `count` such messages, returned oldest first.  Written
from the spec to be compared with `get_messages`. -/
def fetch_per_spec (msgs : List Message) (time : Nat) (count : Nat)
    (message_type recipient : String) : List Message :=
  ((List.insertionSort byDateDesc (msgs.filter (fun m =>
      decide ((message_type = "" ∨ m.msg_type = message_type) ∧
        (m.recipient = recipient ∨ m.recipient = "") ∧
        time < m.date)))).take count).reverse

/-! ### The command dispatcher -/

/-- A server command handler: receives the entity, the player and the JSON
arguments, and yields the mutated entity and a JSON-serializable reply. -/
abbrev Handler : Type := GameInstance → String → JVal → Except String (GameInstance × JVal)

/-- `command in command_dict` / `command_dict[command]` over the merged
command table (modeled as an association list with one entry per name). -/
def lookupCommand (commands : List (String × Handler)) (cmd : String) : Option Handler :=
  (commands.find? (fun kv => kv.1 = cmd)).map (·.2)

/-- The response dictionary built by `server_command`: the echoed command
key and the normalized contents list. -/
structure CommandResponse where
  rtype : String
  contents : List JVal

/-- `server.server_command`, from the point where the target entity has
been resolved: dispatch on the command table, run the handler, `put()` the
entity unless its `do_not_put` flag is set, and wrap a non-list reply in a
one-element list. -/
def server_command (commands : List (String × Handler)) (model : GameInstance)
    (player cmd : String) (arguments : JVal) :
    Except String (GameInstance × CommandResponse) :=
  match lookupCommand commands cmd with
  | some handler => do
      let (m, reply) ← handler model player arguments
      let m' := if m.do_not_put then m else set_full m
      let contents := match reply with
        | .jarr xs => xs
        | r => [r]
      .ok (m', { rtype := cmd, contents := contents })
  | none => .error ("Invalid server command: " ++ cmd ++ ".")

/-! ### Instance id generation (`Game.get_new_instance`) -/

/-- Python's `str` on a natural number: decimal digits, most significant
first. -/
def decimalStr (n : Nat) : String :=
  if n = 0 then "0" else ⟨((Nat.digits 10 n).map Nat.digitChar).reverse⟩

/-- `prefix.replace(' ', '')`: all spaces removed. -/
def stripSpaces (s : String) : String := ⟨s.data.filter (fun c => c ≠ ' ')⟩

/-- The collision probe loop of `Game.get_new_instance`:
`while GameInstance.get_by_key_name(new_iid, parent=self) is not None:
new_index += 1; new_iid = prefix + str(new_index)`.  `existing` is the set
of instance ids already present under the game; the loop is embedded with
explicit fuel (shown sufficient below). -/
def probeIid (existing : List String) (pfx : String) :
    String → Nat → Nat → String
  | iid, _, 0 => iid
  | iid, idx, fuel + 1 =>
    if iid ∈ existing then probeIid existing pfx (pfx ++ decimalStr (idx + 1)) (idx + 1) fuel
    else iid

/-- `Game.get_new_instance`, id part: strip spaces from the desired id,
increment the game's `instance_count`, and probe `prefix`,
`prefix + str(count+2)`, `prefix + str(count+3)`, … until an id not in use
under this game is found.  Returns the chosen id and the updated counter. -/
def get_new_instance_id (existing : List String) (iidDesired : String)
    (instance_count : Nat) : String × Nat :=
  let p := stripSpaces iidDesired
  let c := instance_count + 1
  (probeIid existing p p c (existing.length + 1), c)

/-! ### JSON dictionaries (Python `dict` with string keys) -/

/-- `k in d`. -/
def dictHas {β : Type} (d : List (String × β)) (k : String) : Bool :=
  d.any (fun kv => kv.1 = k)

/-- `d.get(k)` / `d[k]`: first (only) entry for `k`. -/
def dictGet {β : Type} (d : List (String × β)) (k : String) : Option β :=
  (d.find? (fun kv => kv.1 = k)).map (·.2)

/-- `d[k] = v`: replace the entry in place, or append a new one (Python
dictionaries preserve insertion order). -/
def dictSet {β : Type} (d : List (String × β)) (k : String) (v : β) :
    List (String × β) :=
  if dictHas d k then d.map (fun kv => if kv.1 = k then (k, v) else kv)
  else d ++ [(k, v)]

/-! ### Scoreboard extension and the bulls-and-cows module -/

/-- The slice of a `GameInstance` used by the bulls-and-cows module: the
member list and the `scoreboard` extension field (a JSON dictionary from
player to score value; an absent property is the empty dictionary). -/
structure BacInstance where
  players : List String
  scoreboard : List (String × JVal)

/-- `scoreboard.get_scoreboard`: the stored dictionary with a zero entry
added for every member that has none. -/
def get_scoreboard (i : BacInstance) : List (String × JVal) :=
  i.players.foldl (fun b p => if dictHas b p then b else b ++ [(p, .jnum 0)]) i.scoreboard

/-- `scoreboard.get_score`: `check_player` then `get_scoreboard(...)[player]`. -/
def sb_get_score (i : BacInstance) (player : String) : Except String JVal :=
  if player ∈ i.players then
    match dictGet (get_scoreboard i) player with
    | some v => .ok v
    | none => .error "KeyError"
  else .error (player ++ " is not in instance")

/-- `scoreboard.set_score`: `check_player`, then store the updated
dictionary on the instance. -/
def sb_set_score (i : BacInstance) (player : String) (v : JVal) :
    Except String BacInstance :=
  if player ∈ i.players then
    .ok { i with scoreboard := dictSet (get_scoreboard i) player v }
  else .error (player ++ " is not in instance")

/-- `bac_commands.solution_size`. -/
def solution_size : Nat := 4

/-- `bac_commands.starting_guesses`. -/
def starting_guesses : Int := 12

/-- The per-game `bac_*` fields the module stores on its `bac_game`
message.  `bac_last_reply` holds the JSON value whose dump is stored
(`loads ∘ dumps` is the identity on these values). -/
structure BacGame where
  sender : String
  bac_solution : List String
  bac_guesses_remaining : Int
  bac_score : Int
  bac_last_guess : List String
  bac_last_reply : JVal

/-- `bac_commands.new_game_command`: the sampled solution is passed in
(the random draw `sample(colors, 4)` is a parameter) as is the new game
message's datastore id.  Earlier `bac_game` messages of this player are
deleted; this embedding keeps only the current game.  A zero score (the
default for a player without one) is replaced by the `[high, total,
games]` triple `[0, 0, 0]`. -/
def bac_new_game_command (i : BacInstance) (player : String)
    (solution : List String) (gameId : Int) :
    Except String (BacInstance × BacGame × JVal) := do
  let score₀ ← sb_get_score i player
  let (i', score) ← (match score₀ with
    | JVal.jnum 0 => do
        let s := JVal.jarr [.jnum 0, .jnum 0, .jnum 0]
        let i' ← sb_set_score i player s
        Except.ok (i', s)
    | s => Except.ok (i, s) : Except String (BacInstance × JVal))
  let game : BacGame :=
    { sender := player, bac_solution := solution,
      bac_guesses_remaining := starting_guesses,
      bac_score := (solution_size : Int) * starting_guesses * 2,
      bac_last_guess := [""], bac_last_reply := JVal.jstr "" }
  .ok (i', game, JVal.jarr [.jnum game.bac_guesses_remaining,
                            .jnum game.bac_score, score, .jnum gameId])

/-- The bulls/cows count of `guess_command`: for each position, a correct
color in the correct spot is a bull; otherwise a color present in the
solution is a cow. -/
def bac_bulls_cows (guess solution : List String) : Nat × Nat :=
  (guess.zip solution).foldl
    (fun bc p =>
      if p.1 = p.2 then (bc.1 + 1, bc.2)
      else if p.1 ∈ solution then (bc.1, bc.2 + 1)
      else bc)
    (0, 0)

/-- `bac_commands.guess_command`: length check, game lookup (the message
fetched by the id argument is passed as `game?`), ownership check, cached
reply for a repeat of the last guess, out-of-guesses check; then either the
solved branch (zero the guesses, update the `[high, total, games]` score
triple) or the scoring branch (decrement guesses, deduct
`solution_size*2 - cows - 2*bulls` from the score and reply
`[remaining, score, bulls, cows]`); either way the reply is cached. -/
def bac_guess_command (i : BacInstance) (player : String) (game? : Option BacGame)
    (guess : List String) : Except String (BacInstance × Option BacGame × JVal) :=
  if guess.length ≠ solution_size then
    .error "Guess was not the right number of elements."
  else match game? with
  | none => .error "Game not found. Please start a new game."
  | some game =>
    if game.sender ≠ player then .error "This is not your game. Please start a new game."
    else if guess = game.bac_last_guess then .ok (i, some game, game.bac_last_reply)
    else if game.bac_guesses_remaining = 0 then .error "No turns left, please start a new game."
    else if guess = game.bac_solution then do
      let score ← sb_get_score i player
      match score with
      | JVal.jarr [JVal.jnum high, JVal.jnum total, JVal.jnum games] => do
          let nhs : Bool := decide (game.bac_score > high)
          let high' := if nhs then game.bac_score else high
          let newScore := JVal.jarr [.jnum high', .jnum (total + game.bac_score),
                                     .jnum (games + 1)]
          let i' ← sb_set_score i player newScore
          let rc := JVal.jarr [newScore, .jbool nhs]
          .ok (i', some { game with bac_guesses_remaining := 0,
                                    bac_last_reply := rc, bac_last_guess := guess }, rc)
      | _ => .error "unsupported operand type"
    else
      let (bulls, cows) := bac_bulls_cows guess game.bac_solution
      let deduction : Int := (solution_size : Int) * 2 - (cows : Int) - 2 * (bulls : Int)
      let remaining := game.bac_guesses_remaining - 1
      let score' := game.bac_score - deduction
      let rc := JVal.jarr [.jnum remaining, .jnum score', .jnum (bulls : Int), .jnum (cows : Int)]
      .ok (i, some { game with bac_guesses_remaining := remaining, bac_score := score',
                               bac_last_reply := rc, bac_last_guess := guess }, rc)

/-! ### Card-game extension and the androids-to-androids `submit` command -/

/-- A message created by the card module (`create_message(...)` followed by
`put()`). -/
structure AtaMessage where
  sender : String
  msg_type : String
  recipient : String
  content : JVal

/-- The slice of a `GameInstance` used by `submit_card_command`: membership
fields plus the `ata_*` round state and the `crd_*` card state.  Cards are
their stored JSON strings (`loads ∘ dumps` is the identity).  `crd_hands` /
`crd_deck` are `none` when the dynamic property is absent;
`ata_submissions` is the decoded submissions dictionary (player → card). -/
structure AtaInstance where
  players : List String
  invited : List String
  leader : String
  starting_players : List String
  ata_round : Int
  ata_char_card : String
  ata_submissions : List (String × String)
  crd_hands : Option (List (String × List String))
  crd_deck : Option (List String)
  crd_deck_index : Int
  messages : List AtaMessage

/-- `card_game.default_deck`: `[[n, s] for n in 1..13 for s in suits]`,
stored as JSON strings. -/
def default_deck : List String :=
  (List.range 13).flatMap (fun k =>
    ["Hearts", "Spades", "Clubs", "Diamonds"].map (fun s =>
      "[" ++ decimalStr (k + 1) ++ ", \"" ++ s ++ "\"]"))

/-- `card_game.get_hand_dictionary`: the stored hands, or an empty hand per
member when the property is absent. -/
def get_hand_dictionary (i : AtaInstance) : List (String × List String) :=
  match i.crd_hands with
  | none => i.players.map (fun p => (p, []))
  | some h => h

/-- `card_game.get_player_hand`: `check_player`, then
`get_hand_dictionary(...).get(player, [])`. -/
def get_player_hand (i : AtaInstance) (player : String) :
    Except String (List String) :=
  if player ∈ i.players then .ok ((dictGet (get_hand_dictionary i) player).getD [])
  else .error (player ++ " is not in instance")

/-- `card_game.set_player_hand`: `check_player`, store the updated hand
dictionary, and optionally send the player their new `crd_hand` message. -/
def set_player_hand (i : AtaInstance) (player : String) (hand : List String)
    (send_message : Bool) : Except String AtaInstance :=
  if player ∈ i.players then
    let i' := { i with crd_hands := some (dictSet (get_hand_dictionary i) player hand) }
    .ok (if send_message then
          { i' with messages := i'.messages ++
              [⟨player, "crd_hand", player, JVal.jarr (hand.map .jstr)⟩] }
         else i')
  else .error (player ++ " is not in instance")

/-- `card_game.cards_left`: `-1` when no deck was ever set or dealt from. -/
def cards_left (i : AtaInstance) : Int :=
  match i.crd_deck with
  | none => -1
  | some d => (d.length : Int) - i.crd_deck_index

/-- `card_game.get_deck`: initializes the deck (and its index) to the
default 52-card deck when the card module state is absent. -/
def get_deck (i : AtaInstance) : AtaInstance × List String :=
  match i.crd_deck with
  | some d => (i, d)
  | none => ({ i with crd_deck := some default_deck, crd_deck_index := 0 }, default_deck)

/-- `card_game.get_next_card`: an empty deck is an `IndexError`; otherwise
the card at `crd_deck_index` is returned and the index advanced. -/
def get_next_card (i : AtaInstance) : Except String (AtaInstance × String) :=
  if cards_left i = 0 then .error "IndexError: Deck is empty"
  else
    let (i', d) := get_deck i
    match d.get? i'.crd_deck_index.toNat with
    | some c => .ok ({ i' with crd_deck_index := i'.crd_deck_index + 1 }, c)
    | none => .error "IndexError: list index out of range"

/-- The `try: for i in xrange(n): hand.append(get_next_card(instance))
except IndexError:` loop of `card_game.draw_cards`: draw until done or the
deck errors; the flag reports whether an `IndexError` was caught. -/
def drawLoop : AtaInstance → List String → Nat → AtaInstance × List String × Bool
  | i, hand, 0 => (i, hand, false)
  | i, hand, n + 1 =>
    match get_next_card i with
    | .ok (i', c) => drawLoop i' (hand ++ [c]) n
    | .error _ => (i, hand, true)

/-- `card_game.draw_cards`: current hand, the guarded draw loop (re-raising
only when empty decks are not ignored), then `set_player_hand`. -/
def draw_cards (i : AtaInstance) (player : String) (n : Nat)
    (ignore_empty_deck : Bool := true) (send_message : Bool := true) :
    Except String (AtaInstance × List String) := do
  let hand ← get_player_hand i player
  let (i', hand', caught) := drawLoop i hand n
  if caught ∧ ignore_empty_deck = false then .error "IndexError: Deck is empty"
  else do
    let i'' ← set_player_hand i' player hand' send_message
    .ok (i'', hand')

/-- `card_game.discard`: remove each listed card from the hand when present
(a missing card is ignored), then `set_player_hand`. -/
def discard (i : AtaInstance) (player : String) (cards : List String)
    (send_message : Bool) : Except String (AtaInstance × List String) := do
  let hand ← get_player_hand i player
  let hand' := cards.foldl (fun h c => h.erase c) hand
  let i' ← set_player_hand i player hand' send_message
  .ok (i', hand')

/-- `ata_commands.check_players`: when fewer players remain than started
the game, the first missing starting player is re-invited and a blocking
message is produced. -/
def ata_check_players (i : AtaInstance) : AtaInstance × Option String :=
  if i.players.length < i.starting_players.length then
    match i.starting_players.find? (fun sp => sp ∉ i.players) with
    | some sp =>
        ({ i with invited := i.invited ++ [sp] },
         some (sp ++ " left during your game. They have been invited and must rejoin before continuing."))
    | none => (i, none)
  else (i, none)

/-- `ata_commands.set_submission`: double submission in a round is an
error; otherwise the card is recorded under the player. -/
def ata_set_submission (i : AtaInstance) (player card : String) :
    Except String AtaInstance :=
  if dictHas i.ata_submissions player then
    .error "You have already submitted a card for this round."
  else .ok { i with ata_submissions := i.ata_submissions ++ [(player, card)] }

/-- The stale-round reply string of `submit_card_command`. -/
def staleSubmitMsg : String :=
  "You tried to submit a card for the wrong round. Please try again."

/-- `ata_commands.submit_card_command`: a round argument different from the
current round yields the resynchronization payload `[message, hand, round,
characteristic card]` and no other action; otherwise the missing-player
check, the leader prohibition, submission recording, the broadcast of the
submissions so far, discarding the submitted card and drawing its
replacement. -/
def submit_card_command (i : AtaInstance) (player : String) (roundArg : Int)
    (card : String) : Except String (AtaInstance × JVal) :=
  if roundArg ≠ i.ata_round then do
    let hand ← get_player_hand i player
    .ok (i, JVal.jarr [.jstr staleSubmitMsg, .jarr (hand.map .jstr),
                       .jnum i.ata_round, .jstr i.ata_char_card])
  else
    let (i₁, missing) := ata_check_players i
    match missing with
    | some msg => .ok (i₁, .jstr msg)
    | none =>
      if player = i₁.leader then .error "The leader may not submit a card."
      else do
        let i₂ ← ata_set_submission i₁ player card
        let subs := i₂.ata_submissions.map (·.2)
        let i₃ := { i₂ with messages := i₂.messages ++
          [⟨player, "ata_submissions", "",
            JVal.jarr [.jnum i₂.ata_round, .jarr (subs.map .jstr), .jstr card]⟩] }
        let (i₄, _) ← discard i₃ player [card] false
        let (i₅, hand) ← draw_cards i₄ player 1
        .ok (i₅, JVal.jarr [.jnum i₅.ata_round, .jarr (subs.map .jstr),
                            .jarr (hand.map .jstr)])

/-! ### Identity validation: `utils.check_playerid` and the email regex

The server's pattern is
`([0-9a-zA-Z]+[-._+&amp;])*[0-9a-zA-Z]+@([-0-9a-zA-Z]+[.])+[a-zA-Z]{2,6}`
(the HTML-escaped `&amp;` really is part of the source, so the first
character class contains `-._+&amp;` as literal characters).  `re.search`
is embedded as a backtracking matcher over `List Char`: each combinator
returns the possible remainders after a match, in the backtracking engine's
preference order (greedy quantifiers first), and the search takes the
preferred match at the leftmost position that matches at all. -/

/-- The class `[0-9a-zA-Z]`. -/
def emailAlnum (c : Char) : Bool := c.isDigit || c.isAlpha

/-- The class `[-._+&amp;]` — literally the characters `-._+&amp;`. -/
def emailMark (c : Char) : Bool :=
  c = '-' || c = '.' || c = '_' || c = '+' || c = '&' ||
  c = 'a' || c = 'm' || c = 'p' || c = ';'

/-- The class `[-0-9a-zA-Z]`. -/
def emailHostChar (c : Char) : Bool := c = '-' || c.isDigit || c.isAlpha

/-- The class `[a-zA-Z]`. -/
def emailAlpha (c : Char) : Bool := c.isAlpha

/-- Match exactly one character of a class. -/
def pCls (p : Char → Bool) : List Char → List (List Char)
  | [] => []
  | c :: rest => if p c then [rest] else []

/-- Match `cls+`: one or more characters of a class, longest first. -/
def pPlusCls (p : Char → Bool) (s : List Char) : List (List Char) :=
  let r := (s.takeWhile p).length
  (List.range r).map (fun k => s.drop (r - k))

/-- Match `cls{lo,hi}`: between `lo` and `hi` characters of a class,
longest first. -/
def pRepCls (p : Char → Bool) (lo hi : Nat) (s : List Char) : List (List Char) :=
  let r := min (s.takeWhile p).length hi
  if r < lo then [] else (List.range (r - lo + 1)).map (fun k => s.drop (r - k))

/-- Sequencing: all ways to match `f` then `g`, in preference order. -/
def pSeq (f g : List Char → List (List Char)) (s : List Char) : List (List Char) :=
  (f s).flatMap g

/-- Greedy `e*` with explicit unrolling fuel: try one more iteration of
`e` before stopping. -/
def pStarAux (f : List Char → List (List Char)) : Nat → List Char → List (List Char)
  | 0, s => [s]
  | fuel + 1, s => ((f s).flatMap (pStarAux f fuel)) ++ [s]

/-- Greedy `e*`; every iteration of the expressions it is used on below
consumes at least one character, so `length + 1` fuel is exact. -/
def pStar (f : List Char → List (List Char)) (s : List Char) : List (List Char) :=
  pStarAux f (s.length + 1) s

/-- Greedy `e+` as `e` then `e*`. -/
def pPlus (f : List Char → List (List Char)) (s : List Char) : List (List Char) :=
  pSeq f (pStar f) s

/-- The whole email pattern, as remainders after a match anchored at the
start of `s`. -/
def emailMatchRem (s : List Char) : List (List Char) :=
  pSeq (pStar (pSeq (pPlusCls emailAlnum) (pCls emailMark)))
    (pSeq (pPlusCls emailAlnum)
      (pSeq (pCls (fun c => c = '@'))
        (pSeq (pPlus (pSeq (pPlusCls emailHostChar) (pCls (fun c => c = '.'))))
          (pRepCls emailAlpha 2 6)))) s

/-- The match at the start of `s`, as its group 0 (the consumed part),
following the engine's first preference. -/
def emailMatch (s : List Char) : Option (List Char) :=
  (emailMatchRem s).head?.map (fun rem => s.take (s.length - rem.length))

/-- `re.search(EMAIL_ADDRESS_REGEX, s)`: group 0 of the match at the
leftmost position where the pattern matches. -/
def emailSearch : List Char → Option (List Char)
  | [] => emailMatch []
  | c :: rest =>
    match emailMatch (c :: rest) with
    | some m => some m
    | none => emailSearch rest

/-- Python's `str.lower()` (on the ASCII identifiers used here): lower-case
every character. -/
def strLower (s : String) : String := ⟨s.data.map Char.toLower⟩

/-- `utils.check_playerid`: with an instance, a pid equal to `'leader'`
after `.lower()` is replaced by the instance's leader; a blank pid is
rejected, and otherwise the first email-shaped substring is extracted
(rejecting when there is none). -/
def check_playerid (instance? : Option GameInstance) (pid : String) :
    Except String String :=
  let pid := match instance? with
    | some inst => if strLower pid = "leader" then inst.leader else pid
    | none => pid
  if pid = "" then .error "The player identifier is blank."
  else match emailSearch pid.data with
    | some m => .ok ⟨m⟩
    | none => .error (pid ++ " is not a valid email address.")

/-! ## Theorems

Shared lemmas first, then one theorem per claim (with its witness or
counterexample). -/

theorem set_full_players (i : GameInstance) : (set_full i).players = i.players := by
  unfold set_full; split <;> rfl

theorem set_full_invited (i : GameInstance) : (set_full i).invited = i.invited := by
  unfold set_full; split <;> rfl

theorem set_full_leader (i : GameInstance) : (set_full i).leader = i.leader := by
  unfold set_full; split <;> rfl

theorem set_full_max_players (i : GameInstance) :
    (set_full i).max_players = i.max_players := by
  unfold set_full; split <;> rfl

theorem set_full_full (i : GameInstance) :
    (set_full i).full = true ↔
      (i.max_players ≠ 0 ∧ i.max_players ≤ (i.players.length : Int)) := by
  unfold set_full
  split
  · rename_i h
    simp only [Bool.false_eq_true, false_iff]
    intro hc
    rcases h with h | h
    · exact hc.1 h
    · omega
  · rename_i h
    push_neg at h
    simp only [true_iff]
    exact ⟨h.1, by omega⟩

theorem exbind_ok {α β : Type} (a : α) (f : α → Except String β) :
    (Except.ok a >>= f) = f a := rfl

theorem exbind_error {α β : Type} (e : String) (f : α → Except String β) :
    ((Except.error e : Except String α) >>= f) = Except.error e := rfl

theorem exmap_ok {α β : Type} (f : α → β) (a : α) :
    Except.map f (Except.ok a : Except String α) = Except.ok (f a) := rfl

theorem exmap_error {α β : Type} (f : α → β) (e : String) :
    Except.map f (Except.error e : Except String α) = Except.error e := rfl

theorem applyOp_ok_cases {s s' : GameInstance} {op : RegistryOp}
    (h : applyOp s op = .ok s') : (∃ t, s' = set_full t) ∨ s' = s := by
  cases op with
  | join p =>
    rw [applyOp, join_instance] at h
    cases hadd : add_player s p with
    | ok t =>
      rw [hadd, exbind_ok] at h
      simp only [Except.ok.injEq] at h
      exact .inl ⟨t, h.symm⟩
    | error e => rw [hadd, exbind_error] at h; exact absurd h (by simp)
  | leave p =>
    rw [applyOp, leave_instance] at h
    cases hc : check_player s p with
    | ok q =>
      rw [hc, exbind_ok] at h
      simp only [Except.ok.injEq] at h
      exact .inl ⟨_, h.symm⟩
    | error e => rw [hc, exbind_error] at h; exact absurd h (by simp)
  | invite p =>
    rw [applyOp, invite_player] at h
    split at h
    · simp only [Except.ok.injEq] at h; exact .inl ⟨_, h.symm⟩
    · simp only [Except.ok.injEq] at h; exact .inr h.symm
  | setLeader pid cand =>
    rw [applyOp, set_leader] at h
    cases hc : check_player s pid with
    | ok q =>
      rw [hc] at h
      cases hc2 : check_player s cand with
      | ok r =>
        rw [hc2] at h
        simp only [exbind_ok] at h
        split at h
        · rw [exmap_ok] at h
          simp only [Except.ok.injEq] at h
          exact .inr h.symm
        · rw [exmap_ok] at h
          simp only [Except.ok.injEq] at h
          exact .inl ⟨_, h.symm⟩
      | error e =>
        rw [hc2] at h
        simp only [exbind_ok, exbind_error, exmap_error] at h
        exact absurd h (by simp)
    | error e =>
      rw [hc] at h
      simp only [exbind_error, exmap_error] at h
      exact absurd h (by simp)
  | setMaxPlayers pid v =>
    rw [applyOp, set_max_players_op] at h
    cases hc : check_leader s pid with
    | ok q =>
      rw [hc, exbind_ok] at h
      simp only [Except.ok.injEq] at h
      exact .inl ⟨_, h.symm⟩
    | error e => rw [hc, exbind_error] at h; exact absurd h (by simp)
  | setPublic pid v =>
    rw [applyOp, set_public_op] at h
    cases hc : check_leader s pid with
    | ok q =>
      rw [hc, exbind_ok] at h
      simp only [Except.ok.injEq] at h
      exact .inl ⟨_, h.symm⟩
    | error e => rw [hc, exbind_error] at h; exact absurd h (by simp)

theorem runOps_cons (s : GameInstance) (op : RegistryOp) (ops : List RegistryOp) :
    runOps s (op :: ops) = runOps (match applyOp s op with
      | .ok s' => s'
      | .error _ => s) ops := rfl

theorem runOps_pres (P : GameInstance → Prop) (hset : ∀ t, P (set_full t)) :
    ∀ (ops : List RegistryOp) (s : GameInstance), P s → P (runOps s ops) := by
  intro ops
  induction ops with
  | nil => intro s hs; exact hs
  | cons op ops ih =>
    intro s hs
    rw [runOps_cons]
    cases hap : applyOp s op with
    | ok s' =>
      rcases applyOp_ok_cases hap with ⟨t, rfl⟩ | rfl
      · exact ih _ (hset t)
      · exact ih _ hs
    | error e => exact ih _ hs

/-- C1, counterexample: after the sole player of a fresh instance leaves,
the persisted state has the sentinel `max_players = -1` and `full = true`,
yet `max_players > 0 ∧ max_players ≤ |players|` is false — so `full` is
not equivalent to that formula in sentinel states. -/
theorem C1_counterexample :
    (leave_instance (new_game_instance "a@x.com" false) "a@x.com").map
        (fun s => (s.full,
          decide (s.max_players > 0 ∧ s.max_players ≤ (s.players.length : Int))))
      = Except.ok (true, false) := by rfl

/-- C1 (amended): at every point after a persist — i.e. in every state
reachable by running operations from a fresh instance, each of which ends
in `put`/`set_full` or leaves the state untouched — `full` is true if and
only if `max_players ≠ 0 ∧ max_players ≤ |players|`.  (The claim's
`max_players > 0` fails at the negative blocking sentinel, where `set_full`
makes the instance permanently full.) -/
theorem C1_full_invariant (p : String) (pub : Bool) (ops : List RegistryOp) :
    (runOps (new_game_instance p pub) ops).full = true ↔
      ((runOps (new_game_instance p pub) ops).max_players ≠ 0 ∧
        (runOps (new_game_instance p pub) ops).max_players ≤
          ((runOps (new_game_instance p pub) ops).players.length : Int)) := by
  refine runOps_pres
    (fun s => s.full = true ↔ (s.max_players ≠ 0 ∧ s.max_players ≤ (s.players.length : Int)))
    (fun t => ?_) ops (new_game_instance p pub) ?_
  · dsimp only
    rw [set_full_max_players, set_full_players]; exact set_full_full t
  · unfold new_game_instance
    dsimp only
    rw [set_full_max_players, set_full_players]; exact set_full_full _

/-- C2: joining is idempotent for a current member (the state is returned
unchanged); a non-member joins successfully if and only if the instance is
public or has invited them, and is not full — in which case they are
appended to `players` and removed from `invited` — and otherwise
`add_player` raises. -/
theorem C2_add_player_spec (i : GameInstance) (p : String) :
    (p ∈ i.players → add_player i p = .ok i) ∧
    (p ∉ i.players →
      (((i.public = true ∨ p ∈ i.invited) ∧ i.full = false) →
          add_player i p =
            .ok (set_full { i with invited := i.invited.erase p,
                                   players := i.players ++ [p] })) ∧
      (¬((i.public = true ∨ p ∈ i.invited) ∧ i.full = false) →
          ∃ e, add_player i p = .error e)) := by
  refine ⟨fun hp => ?_, fun hp => ⟨fun hok => ?_, fun hno => ?_⟩⟩
  · unfold add_player
    rw [if_neg (by simp [hp])]
  · obtain ⟨hpub, hfull⟩ := hok
    unfold add_player
    rw [if_pos hp, if_neg ?_, if_neg (by simp [hfull])]
    rcases hpub with hpub | hinv
    · rintro ⟨-, hc⟩; rw [hpub] at hc; cases hc
    · rintro ⟨hc, -⟩; exact hc hinv
  · unfold add_player
    rw [if_pos hp]
    by_cases h1 : p ∉ i.invited ∧ i.public = false
    · rw [if_pos h1]; exact ⟨_, rfl⟩
    · rw [if_neg h1]
      have hfull : i.full = true := by
        by_contra hf
        refine hno ⟨?_, by revert hf; cases i.full <;> simp⟩
        rcases not_and_or.mp h1 with h | h
        · exact .inr (not_not.mp h)
        · left; revert h; cases i.public <;> simp
      rw [if_pos (by simp [hfull])]
      exact ⟨_, rfl⟩

/-- Witness for C2 at concrete inputs: the creator re-joining their fresh
instance is an idempotent success. -/
theorem C2_add_player_spec_witness :
    add_player (new_game_instance "a@x.com" false) "a@x.com" =
      .ok (new_game_instance "a@x.com" false) :=
  (C2_add_player_spec (new_game_instance "a@x.com" false) "a@x.com").1 (by decide)

theorem add_player_dead {s : GameInstance} (hp : s.players = [])
    (hf : s.full = true) (q : String) : ∃ e, add_player s q = .error e := by
  unfold add_player
  rw [hp]
  by_cases h1 : q ∉ s.invited ∧ s.public = false
  · exact ⟨_, by rw [if_pos (List.not_mem_nil q), if_pos h1]⟩
  · exact ⟨_, by rw [if_pos (List.not_mem_nil q), if_neg h1, if_pos (by simp [hf])]⟩

theorem join_instance_dead {s : GameInstance} (hp : s.players = [])
    (hf : s.full = true) (q : String) : ∃ e, join_instance s q = .error e := by
  obtain ⟨e, he⟩ := add_player_dead hp hf q
  exact ⟨e, by unfold join_instance; rw [he, exbind_error]⟩

theorem check_player_dead {s : GameInstance} (hp : s.players = [])
    (q : String) : check_player s q = .error (q ++ " is not in instance") := by
  unfold check_player
  rw [hp, if_neg]
  simp

theorem dead_step {s : GameInstance} {op : RegistryOp} (hd : deadInstance s)
    (hop : op.isSetMaxPlayers = false) :
    deadInstance (match applyOp s op with | .ok s' => s' | .error _ => s) := by
  obtain ⟨hp, hm, hf⟩ := hd
  cases op with
  | join q =>
    obtain ⟨e, he⟩ := join_instance_dead hp hf q
    simp only [applyOp, he]
    exact ⟨hp, hm, hf⟩
  | leave q =>
    simp only [applyOp, leave_instance, check_player_dead hp, exbind_error]
    exact ⟨hp, hm, hf⟩
  | invite q =>
    simp only [applyOp, invite_player]
    split
    · refine ⟨by rw [set_full_players]; exact hp, by rw [set_full_max_players]; exact hm, ?_⟩
      rw [set_full_full]
      constructor
      · show s.max_players ≠ 0
        omega
      · show s.max_players ≤ (s.players.length : Int)
        rw [hp]
        show s.max_players ≤ ((0 : Nat) : Int)
        omega
    · exact ⟨hp, hm, hf⟩
  | setLeader pid cand =>
    simp only [applyOp, set_leader, check_player_dead hp, exbind_error, exmap_error]
    exact ⟨hp, hm, hf⟩
  | setMaxPlayers pid v => simp [RegistryOp.isSetMaxPlayers] at hop
  | setPublic pid v =>
    simp only [applyOp, set_public_op]
    cases hc : check_leader s pid with
    | ok r =>
      simp only [exbind_ok]
      refine ⟨by rw [set_full_players]; exact hp, by rw [set_full_max_players]; exact hm, ?_⟩
      rw [set_full_full]
      constructor
      · show s.max_players ≠ 0
        omega
      · show s.max_players ≤ (s.players.length : Int)
        rw [hp]
        show s.max_players ≤ ((0 : Nat) : Int)
        omega
    | error e =>
      simp only [exbind_error]
      exact ⟨hp, hm, hf⟩

/-- C3, counterexample: a public instance is created, its only member (and
leader) leaves — so `players` is empty and the sentinel is set — and yet a
later `sys_set_max_players 0` issued by the departed player (who still
matches `check_leader`) re-opens the instance, after which a fresh player's
join succeeds. -/
theorem C3_counterexample :
    (do
        let s₁ ← leave_instance (new_game_instance "a@x.com" true) "a@x.com"
        let s₂ ← set_max_players_op s₁ "a@x.com" 0
        let s₃ ← join_instance s₂ "b@x.com"
        Except.ok (s₁.players, s₃.players) :
      Except String (List String × List String))
      = Except.ok ([], ["b@x.com"]) := by rfl

/-- C3 (amended): removing the last player leaves the instance dead
(`players = []`, `max_players = -1`, `full = true`), the dead state is
preserved by every subsequent operation other than the
`sys_set_max_players` server command, and every join attempt against a
dead instance fails.  (As the counterexample shows, a later
`sys_set_max_players` issued by the departed leader can lift the block, so
the permanence in the claim holds only for operation sequences without that
command.) -/
theorem C3_dead_instance_stays_dead :
    (∀ (i : GameInstance) (p : String), i.players = [p] →
        leave_instance i p =
          .ok (set_full { i with players := [], max_players := -1 }) ∧
        deadInstance (set_full { i with players := [], max_players := -1 })) ∧
    (∀ (s : GameInstance) (ops : List RegistryOp), deadInstance s →
        (∀ op ∈ ops, op.isSetMaxPlayers = false) →
        deadInstance (runOps s ops)) ∧
    (∀ (s : GameInstance), deadInstance s → ∀ q, ∃ e, join_instance s q = .error e) := by
  refine ⟨fun i p hlast => ?_, fun s ops hd hops => ?_, fun s hd q => join_instance_dead hd.1 hd.2.2 q⟩
  · have hmem : p ∈ i.players := by rw [hlast]; exact List.mem_singleton_self p
    have herase : i.players.erase p = [] := by rw [hlast]; exact List.erase_cons_head p []
    constructor
    · unfold leave_instance check_player
      rw [if_pos hmem, exbind_ok, herase]
      simp
    · refine ⟨by rw [set_full_players], ?_, ?_⟩
      · rw [set_full_max_players]
        exact show (-1 : Int) < 0 by decide
      · rw [set_full_full]
        exact ⟨show (-1 : Int) ≠ 0 by decide,
               show (-1 : Int) ≤ ((([] : List String).length : Nat) : Int) by decide⟩
  · induction ops generalizing s with
    | nil => exact hd
    | cons op ops ih =>
      rw [runOps_cons]
      exact ih _ (dead_step hd (hops op (List.mem_cons_self op ops))) (fun o ho => hops o (List.mem_cons_of_mem op ho))

/-- Witness for C3 at concrete inputs: a dead instance stays dead under a
join, an invite and a leader change, and a join against it fails. -/
theorem C3_dead_instance_stays_dead_witness :
    deadInstance (runOps
      (set_full { players := [], invited := [], leader := "a@x.com",
                  public := true, full := true, max_players := -1 }
        : GameInstance)
      [RegistryOp.join "b@x.com", RegistryOp.invite "c@x.com",
       RegistryOp.setLeader "a@x.com" "b@x.com"]) ∧
    (join_instance
      (set_full { players := [], invited := [], leader := "a@x.com",
                  public := true, full := true, max_players := -1 }) "b@x.com").toOption
      = none := by
  have h1 := C3_dead_instance_stays_dead.1
    { players := ["a@x.com"], invited := [], leader := "a@x.com",
      public := true, full := true, max_players := -1 } "a@x.com" rfl
  have hd : deadInstance (set_full
      { players := [], invited := [], leader := "a@x.com",
        public := true, full := true, max_players := -1 }) := by
    exact h1.2
  refine ⟨C3_dead_instance_stays_dead.2.1 _ _ hd (by decide), ?_⟩
  obtain ⟨e, he⟩ := C3_dead_instance_stays_dead.2.2 _ hd "b@x.com"
  rw [he]
  rfl

theorem headI_mem_of_ne_nil {l : List String} (h : l ≠ []) : l.headI ∈ l := by
  cases l with
  | nil => exact absurd rfl h
  | cons a t => exact List.mem_cons_self a t

theorem check_player_ok {s : GameInstance} {q r : String}
    (h : check_player s q = .ok r) : r = q ∧ q ∈ s.players := by
  unfold check_player at h
  split at h
  · cases h; exact ⟨rfl, by assumption⟩
  · exact absurd h (by simp)

theorem check_player_mem {s : GameInstance} {q : String} (h : q ∈ s.players) :
    check_player s q = .ok q := by
  unfold check_player
  rw [if_pos h]

theorem add_player_ok_shape {s t : GameInstance} {q : String}
    (h : add_player s q = .ok t) :
    t = s ∨ t = set_full { s with invited := s.invited.erase q,
                                  players := s.players ++ [q] } := by
  unfold add_player at h
  split at h
  · split at h
    · exact absurd h (by simp)
    · split at h
      · exact absurd h (by simp)
      · cases h; exact .inr rfl
  · cases h; exact .inl rfl

/-- The inductive invariant behind C4: the leader is a member while the
instance is inhabited, and an emptied instance is blocked (so that
membership can never silently restart with a stale leader). -/
abbrev LeaderInv (s : GameInstance) : Prop :=
  (s.players ≠ [] → s.leader ∈ s.players) ∧
  (s.players = [] → s.full = true ∧ s.max_players < 0)

theorem set_full_leaderInv {t : GameInstance} (h : LeaderInv t) :
    LeaderInv (set_full t) := by
  constructor
  · rw [set_full_players, set_full_leader]; exact h.1
  · rw [set_full_players, set_full_max_players]
    intro hp
    obtain ⟨-, hm⟩ := h.2 hp
    refine ⟨?_, hm⟩
    rw [set_full_full]
    refine ⟨by omega, ?_⟩
    rw [hp]
    show t.max_players ≤ ((0 : Nat) : Int)
    omega

theorem leader_step {s : GameInstance} {op : RegistryOp} (hd : LeaderInv s)
    (hop : op.isRegistry = true) :
    LeaderInv (match applyOp s op with | .ok s' => s' | .error _ => s) := by
  cases op with
  | join q =>
    by_cases hps : s.players = []
    · obtain ⟨hf, -⟩ := hd.2 hps
      obtain ⟨e, he⟩ := join_instance_dead hps hf q
      simp only [applyOp, he]
      exact hd
    · simp only [applyOp, join_instance]
      cases hadd : add_player s q with
      | error e => rw [exbind_error]; exact hd
      | ok t =>
        rw [exbind_ok]
        show LeaderInv (set_full t)
        refine set_full_leaderInv ?_
        rcases add_player_ok_shape hadd with rfl | rfl
        · exact hd
        · refine set_full_leaderInv ⟨fun _ => ?_, fun hc => ?_⟩
          · show s.leader ∈ s.players ++ [q]
            exact List.mem_append_left _ (hd.1 hps)
          · exact absurd hc (by simp)
  | leave q =>
    simp only [applyOp, leave_instance]
    cases hc : check_player s q with
    | error e => rw [exbind_error]; exact hd
    | ok r =>
      obtain ⟨rfl, hmem⟩ := check_player_ok hc
      rw [exbind_ok]
      have hne : s.players ≠ [] := by
        intro hc'; rw [hc'] at hmem; exact absurd hmem (List.not_mem_nil r)
      by_cases hcond : r = s.leader ∧ (s.players.erase r).length ≠ 0
      · rw [if_pos hcond, if_neg hcond.2]
        refine set_full_leaderInv ⟨fun _ => ?_, fun hp' => ?_⟩
        · show (s.players.erase r).headI ∈ s.players.erase r
          exact headI_mem_of_ne_nil (fun hzz => hcond.2 (by rw [hzz]; rfl))
        · have hp2 : s.players.erase r = [] := hp'
          exact absurd (by rw [hp2]; rfl : (s.players.erase r).length = 0) hcond.2
      · rw [if_neg hcond]
        by_cases hz : (s.players.erase r).length = 0
        · rw [if_pos hz]
          constructor
          · intro hp'
            exfalso
            apply hp'
            rw [set_full_players]
            exact List.length_eq_zero.mp hz
          · intro _
            refine ⟨?_, ?_⟩
            · rw [set_full_full]
              refine ⟨show (-1 : Int) ≠ 0 by decide, ?_⟩
              show (-1 : Int) ≤ ((s.players.erase r).length : Int)
              omega
            · rw [set_full_max_players]
              exact show (-1 : Int) < 0 by decide
        · rw [if_neg hz]
          have hrl : r ≠ s.leader := fun he => hcond ⟨he, hz⟩
          refine set_full_leaderInv ⟨fun _ => ?_, fun hp' => ?_⟩
          · show s.leader ∈ s.players.erase r
            exact (List.mem_erase_of_ne (fun he => hrl he.symm)).mpr (hd.1 hne)
          · have hp2 : s.players.erase r = [] := hp'
            exact absurd (List.length_eq_zero.mpr hp2) hz
  | invite q =>
    simp only [applyOp, invite_player]
    split
    · refine set_full_leaderInv ⟨hd.1, fun hp => ?_⟩
      exact hd.2 hp
    · exact hd
  | setLeader pid cand =>
    simp only [applyOp, set_leader]
    cases hc : check_player s pid with
    | error e => rw [exbind_error, exmap_error]; exact hd
    | ok r =>
      rw [exbind_ok]
      cases hc2 : check_player s cand with
      | error e => rw [exbind_error, exmap_error]; exact hd
      | ok r2 =>
        obtain ⟨rfl, hmem2⟩ := check_player_ok hc2
        rw [exbind_ok]
        by_cases hcnd : r ≠ s.leader ∨ s.leader = r2
        · rw [if_pos hcnd, exmap_ok]
          exact hd
        · rw [if_neg hcnd, exmap_ok]
          refine set_full_leaderInv ⟨fun _ => hmem2, fun hp => ?_⟩
          rw [show ({ s with leader := r2 } : GameInstance).players = s.players from rfl] at hp
          rw [hp] at hmem2
          exact absurd hmem2 (List.not_mem_nil _)
  | setMaxPlayers pid v => simp [RegistryOp.isRegistry] at hop
  | setPublic pid v => simp [RegistryOp.isRegistry] at hop

theorem leave_instance_promotes {i : GameInstance}
    (hmem : i.leader ∈ i.players) (hne : i.players.erase i.leader ≠ []) :
    leave_instance i i.leader =
      .ok (set_full { i with players := i.players.erase i.leader,
                             leader := (i.players.erase i.leader).headI }) := by
  have h1 : ¬((i.players.erase i.leader).length = 0) :=
    fun hz => hne (List.length_eq_zero.mp hz)
  simp only [leave_instance, check_player_mem hmem, exbind_ok]
  rw [if_neg h1]
  have hc : True ∧ (i.players.erase i.leader).length ≠ 0 := ⟨trivial, h1⟩
  rw [if_pos hc]

/-- C4: the leader of an inhabited instance is always a member.
`new_instance` makes the creator sole player and leader; the invariant is
preserved by every registry operation; `leave_instance` rejects an absent
leaver and promotes `players[0]` of the remaining members when the leader
departs; and `set_leader` rejects a non-member candidate. -/
theorem C4_leader_in_players :
    (∀ (p : String) (pub : Bool),
        (new_game_instance p pub).players = [p] ∧ (new_game_instance p pub).leader = p) ∧
    (∀ (p : String) (pub : Bool) (ops : List RegistryOp),
        (∀ op ∈ ops, op.isRegistry = true) →
        (runOps (new_game_instance p pub) ops).players ≠ [] →
        (runOps (new_game_instance p pub) ops).leader ∈
          (runOps (new_game_instance p pub) ops).players) ∧
    (∀ (i : GameInstance) (q : String), q ∉ i.players →
        ∃ e, leave_instance i q = .error e) ∧
    (∀ (i s : GameInstance), i.leader ∈ i.players →
        leave_instance i i.leader = .ok s →
        i.players.erase i.leader ≠ [] →
        s.leader = (i.players.erase i.leader).headI) ∧
    (∀ (i : GameInstance) (pid cand : String), cand ∉ i.players →
        ∃ e, set_leader i pid cand = .error e) := by
  have main : ∀ (ops : List RegistryOp) (s : GameInstance), LeaderInv s →
      (∀ op ∈ ops, op.isRegistry = true) → LeaderInv (runOps s ops) := by
    intro ops
    induction ops with
    | nil => exact fun s hs _ => hs
    | cons op ops ih =>
      intro s hs hops
      rw [runOps_cons]
      exact ih _ (leader_step hs (hops op (List.mem_cons_self op ops)))
        (fun o ho => hops o (List.mem_cons_of_mem op ho))
  refine ⟨fun p pub => ⟨?_, ?_⟩, fun p pub ops hops => ?_, fun i q hq => ?_,
          fun i s hmem hok hne => ?_, fun i pid cand hcand => ?_⟩
  · unfold new_game_instance; rw [set_full_players]
  · unfold new_game_instance; rw [set_full_leader]
  · refine (main ops (new_game_instance p pub) ⟨fun _ => ?_, fun hz => ?_⟩ hops).1
    · unfold new_game_instance
      rw [set_full_leader, set_full_players]
      exact List.mem_singleton_self p
    · rw [new_game_instance, set_full_players] at hz
      exact absurd hz (by simp)
  · have h1 : check_player i q = .error (q ++ " is not in instance") := by
      unfold check_player; rw [if_neg hq]
    exact ⟨_, by unfold leave_instance; rw [h1, exbind_error]⟩
  · rw [leave_instance_promotes hmem hne] at hok
    simp only [Except.ok.injEq] at hok
    rw [← hok, set_full_leader]
  · by_cases hp : pid ∈ i.players
    · have h2 : check_player i cand = .error (cand ++ " is not in instance") := by
        unfold check_player; rw [if_neg hcand]
      exact ⟨_, by unfold set_leader; rw [check_player_mem hp, exbind_ok, h2, exbind_error]⟩
    · have h1 : check_player i pid = .error (pid ++ " is not in instance") := by
        unfold check_player; rw [if_neg hp]
      exact ⟨_, by unfold set_leader; rw [h1, exbind_error]⟩

/-- Witness for C4 at concrete inputs: invite/join/leave keep the leader a
member; a non-member cannot leave; the promoted leader is the first
remaining member; a non-member candidate cannot be installed. -/
theorem C4_leader_in_players_witness :
    (runOps (new_game_instance "a@x.com" false)
        [RegistryOp.invite "b@x.com", RegistryOp.join "b@x.com",
         RegistryOp.leave "a@x.com"]).leader ∈
      (runOps (new_game_instance "a@x.com" false)
        [RegistryOp.invite "b@x.com", RegistryOp.join "b@x.com",
         RegistryOp.leave "a@x.com"]).players ∧
    (leave_instance (new_game_instance "a@x.com" false) "z@x.com").toOption = none ∧
    (⟨["b@x.com"], [], "b@x.com", false, false, 0, false⟩ : GameInstance).leader =
      ((⟨["a@x.com", "b@x.com"], [], "a@x.com", false, false, 0, false⟩ :
          GameInstance).players.erase "a@x.com").headI ∧
    (set_leader (new_game_instance "a@x.com" false) "a@x.com" "z@x.com").toOption = none := by
  refine ⟨C4_leader_in_players.2.1 "a@x.com" false _ (by decide) (by decide), ?_, ?_, ?_⟩
  · obtain ⟨e, he⟩ :=
      C4_leader_in_players.2.2.1 (new_game_instance "a@x.com" false) "z@x.com" (by decide)
    rw [he]; rfl
  · exact C4_leader_in_players.2.2.2.1
      ⟨["a@x.com", "b@x.com"], [], "a@x.com", false, false, 0, false⟩
      ⟨["b@x.com"], [], "b@x.com", false, false, 0, false⟩
      (by decide) (by rfl) (by decide)
  · obtain ⟨e, he⟩ :=
      C4_leader_in_players.2.2.2.2 (new_game_instance "a@x.com" false) "a@x.com" "z@x.com" (by decide)
    rw [he]; rfl

theorem get_messages_query_eq (msgs : List Message) (mtype recip : String) (time : Nat) :
    get_messages_query msgs mtype recip time none false =
      List.insertionSort byDateDesc (msgs.filter (fun m =>
        decide ((mtype = "" ∨ m.msg_type = mtype) ∧
          (m.recipient = recip ∨ m.recipient = "") ∧ time < m.date))) := by
  unfold get_messages_query
  dsimp only
  congr 1
  by_cases h1 : mtype = ""
  · by_cases h2 : recip = ""
    · rw [if_pos h2, if_neg (by simp [h1]), List.filter_filter]
      refine List.filter_congr (fun m _ => ?_)
      rw [Bool.eq_iff_iff]
      simp only [Bool.and_eq_true, decide_eq_true_eq]
      constructor
      · rintro ⟨hr, hd⟩; exact ⟨.inl h1, .inl (h2 ▸ hr), hd⟩
      · rintro ⟨-, hr, hd⟩
        refine ⟨?_, hd⟩
        rcases hr with hr | hr
        · rw [hr, h2]
        · exact hr
    · rw [if_neg h2, if_neg (by simp), if_neg (by simp [h1]), List.filter_filter]
      refine List.filter_congr (fun m _ => ?_)
      rw [Bool.eq_iff_iff]
      simp only [Bool.and_eq_true, decide_eq_true_eq]
      constructor
      · rintro ⟨hr, hd⟩; exact ⟨.inl h1, hr, hd⟩
      · rintro ⟨-, hr, hd⟩; exact ⟨hr, hd⟩
  · by_cases h2 : recip = ""
    · rw [if_pos h2, if_pos h1, List.filter_filter, List.filter_filter]
      refine List.filter_congr (fun m _ => ?_)
      rw [Bool.eq_iff_iff]
      simp only [Bool.and_eq_true, decide_eq_true_eq]
      constructor
      · rintro ⟨⟨hr, ht⟩, hd⟩; exact ⟨.inr ht, .inl (h2 ▸ hr), hd⟩
      · rintro ⟨ht, hr, hd⟩
        rcases ht with ht | ht
        · exact absurd ht h1
        · refine ⟨⟨?_, ht⟩, hd⟩
          rcases hr with hr | hr
          · rw [hr, h2]
          · exact hr
    · rw [if_neg h2, if_neg (by simp), if_pos h1, List.filter_filter, List.filter_filter]
      refine List.filter_congr (fun m _ => ?_)
      rw [Bool.eq_iff_iff]
      simp only [Bool.and_eq_true, decide_eq_true_eq]
      constructor
      · rintro ⟨⟨hr, ht⟩, hd⟩; exact ⟨.inr ht, hr, hd⟩
      · rintro ⟨ht, hr, hd⟩
        rcases ht with ht | ht
        · exact absurd ht h1
        · exact ⟨⟨hr, ht⟩, hd⟩

/-- C5: `get_messages` returns exactly the newest `count` child messages
newer than `time` whose type matches (all types when the filter is empty)
and whose recipient is the given player or the broadcast empty string,
reversed into oldest-first order within that window: it agrees with the
specification's single-pass "filter, newest `count`, reverse" description;
the result is oldest-first; its length is `min count` (number of
qualifying messages) — so with more qualifiers than `count` the first
returned message is the oldest of the selected newest window, not the true
oldest; and every returned message qualifies. -/
theorem C5_get_messages_spec (msgs : List Message) (time : Nat) (count : Nat)
    (mtype recip : String) :
    get_messages msgs time count mtype recip = fetch_per_spec msgs time count mtype recip ∧
    List.Pairwise (fun a b : Message => a.date ≤ b.date)
      (get_messages msgs time count mtype recip) ∧
    (get_messages msgs time count mtype recip).length =
      min count (msgs.filter (fun m =>
        decide ((mtype = "" ∨ m.msg_type = mtype) ∧
          (m.recipient = recip ∨ m.recipient = "") ∧ time < m.date))).length ∧
    (∀ m ∈ get_messages msgs time count mtype recip,
      (mtype = "" ∨ m.msg_type = mtype) ∧
      (m.recipient = recip ∨ m.recipient = "") ∧ time < m.date) := by
  have hq := get_messages_query_eq msgs mtype recip time
  refine ⟨?_, ?_, ?_, ?_⟩
  · unfold get_messages fetch_per_spec
    rw [hq]
  · unfold get_messages
    rw [hq, List.pairwise_reverse]
    refine List.Pairwise.sublist (List.take_sublist _ _) ?_
    exact List.sorted_insertionSort byDateDesc _
  · unfold get_messages
    rw [hq, List.length_reverse, List.length_take,
        (List.perm_insertionSort byDateDesc _).length_eq]
  · intro m hm
    unfold get_messages at hm
    rw [hq, List.mem_reverse] at hm
    have hm2 := (List.take_sublist _ _).subset hm
    rw [(List.perm_insertionSort byDateDesc _).mem_iff, List.mem_filter] at hm2
    exact of_decide_eq_true hm2.2

/-- Witness for C5 at concrete inputs: with three qualifying messages and
`count = 2`, a returned message indeed matches the type, recipient and
time filters. -/
theorem C5_get_messages_spec_witness :
    (("" : String) = "" ∨ ("t" : String) = "") ∧
      (("" : String) = "p@x.com" ∨ ("" : String) = "") ∧ (0 : Nat) < 2 :=
  (C5_get_messages_spec
      [⟨"s", "t", "p@x.com", 1, "c1"⟩, ⟨"s", "t", "", 2, "c2"⟩,
       ⟨"s", "u", "p@x.com", 3, "c3"⟩] 0 2 "" "p@x.com").2.2.2
    ⟨"s", "t", "", 2, "c2"⟩ (by decide)

/-- C6: when the dispatched handler returns successfully, the response
dictionary echoes the command name and its contents are exactly the
handler's reply when that reply is a list, and the one-element list holding
the reply otherwise (the entity is persisted unless its `do_not_put` flag
is set). -/
theorem C6_server_command_normalizes (commands : List (String × Handler))
    (model : GameInstance) (player cmd : String) (args : JVal)
    (h : Handler) (m' : GameInstance) (r : JVal)
    (hl : lookupCommand commands cmd = some h)
    (hr : h model player args = .ok (m', r)) :
    (∀ xs, r = .jarr xs →
        server_command commands model player cmd args =
          .ok (if m'.do_not_put then m' else set_full m',
               { rtype := cmd, contents := xs })) ∧
    (r.isArr = false →
        server_command commands model player cmd args =
          .ok (if m'.do_not_put then m' else set_full m',
               { rtype := cmd, contents := [r] })) := by
  constructor
  · rintro xs rfl
    unfold server_command
    rw [hl]
    dsimp only
    rw [hr, exbind_ok]
  · intro hna
    unfold server_command
    rw [hl]
    dsimp only
    rw [hr, exbind_ok]
    cases r with
    | jarr xs => exact absurd hna (by simp [JVal.isArr])
    | jnull => rfl
    | jbool b => rfl
    | jnum n => rfl
    | jstr s => rfl

/-- Witness for C6 at concrete inputs: a list reply is passed through, a
non-list reply is wrapped. -/
theorem C6_server_command_normalizes_witness :
    server_command
        [("list_cmd", fun m _ _ => Except.ok (m, JVal.jarr [JVal.jnum 1, JVal.jnum 2])),
         ("val_cmd", fun m _ _ => Except.ok (m, JVal.jnum 7))]
        (new_game_instance "a@x.com" false) "a@x.com" "list_cmd" JVal.jnull =
      .ok (set_full (new_game_instance "a@x.com" false),
           { rtype := "list_cmd", contents := [JVal.jnum 1, JVal.jnum 2] }) ∧
    server_command
        [("list_cmd", fun m _ _ => Except.ok (m, JVal.jarr [JVal.jnum 1, JVal.jnum 2])),
         ("val_cmd", fun m _ _ => Except.ok (m, JVal.jnum 7))]
        (new_game_instance "a@x.com" false) "a@x.com" "val_cmd" JVal.jnull =
      .ok (set_full (new_game_instance "a@x.com" false),
           { rtype := "val_cmd", contents := [JVal.jnum 7] }) := by
  constructor
  · exact (C6_server_command_normalizes
      [("list_cmd", fun m _ _ => Except.ok (m, JVal.jarr [JVal.jnum 1, JVal.jnum 2])),
       ("val_cmd", fun m _ _ => Except.ok (m, JVal.jnum 7))]
      (new_game_instance "a@x.com" false) "a@x.com" "list_cmd" JVal.jnull
      (fun m _ _ => Except.ok (m, JVal.jarr [JVal.jnum 1, JVal.jnum 2]))
      (new_game_instance "a@x.com" false) (JVal.jarr [JVal.jnum 1, JVal.jnum 2])
      rfl rfl).1 [JVal.jnum 1, JVal.jnum 2] rfl
  · exact (C6_server_command_normalizes
      [("list_cmd", fun m _ _ => Except.ok (m, JVal.jarr [JVal.jnum 1, JVal.jnum 2])),
       ("val_cmd", fun m _ _ => Except.ok (m, JVal.jnum 7))]
      (new_game_instance "a@x.com" false) "a@x.com" "val_cmd" JVal.jnull
      (fun m _ _ => Except.ok (m, JVal.jnum 7))
      (new_game_instance "a@x.com" false) (JVal.jnum 7)
      rfl rfl).2 rfl

/-- C7, counterexample: with the solution `[Blue, Green, Orange, Red]`, the
all-cows guess `[Red, Orange, Green, Blue]` deducts
`solution_size*2 - cows - 2*bulls = 8 - 4 - 0 = 4` points, so the reply is
`[11, 92, 0, 4]` — not the `[11, 88, 0, 4]` the claim states (the claim
deducts the full 8 as if cows were not credited). -/
theorem C7_counterexample :
    ((bac_new_game_command ⟨["a@x.com"], []⟩ "a@x.com"
        ["Blue", "Green", "Orange", "Red"] 1).bind
      (fun res => bac_guess_command res.1 "a@x.com" (some res.2.1)
        ["Red", "Orange", "Green", "Blue"])).map (fun res => res.2.2)
      = .ok (JVal.jarr [.jnum 11, .jnum 92, .jnum 0, .jnum 4]) ∧
    JVal.jarr [JVal.jnum 11, JVal.jnum 92, JVal.jnum 0, JVal.jnum 4] ≠
      JVal.jarr [JVal.jnum 11, JVal.jnum 88, JVal.jnum 0, JVal.jnum 4] := by
  refine ⟨rfl, ?_⟩
  intro h
  simp only [JVal.jarr.injEq, List.cons.injEq, JVal.jnum.injEq] at h
  omega

/-- C7 (amended): after `new_game` the score is `4*12*2 = 96` with 12
guesses; the all-cows guess (0 bulls, 4 cows) deducts `8 - 4 - 0 = 4`
points, making the score `92` and the response `[11, 92, 0, 4]`; and
re-submitting the identical guess returns the identical cached response
with no state change and no further deduction. -/
theorem C7_bulls_and_cows_scenario :
    bac_new_game_command ⟨["a@x.com"], []⟩ "a@x.com"
        ["Blue", "Green", "Orange", "Red"] 1 =
      .ok (⟨["a@x.com"], [("a@x.com", JVal.jarr [.jnum 0, .jnum 0, .jnum 0])]⟩,
           ⟨"a@x.com", ["Blue", "Green", "Orange", "Red"], 12, 96, [""], JVal.jstr ""⟩,
           JVal.jarr [.jnum 12, .jnum 96,
                      .jarr [.jnum 0, .jnum 0, .jnum 0], .jnum 1]) ∧
    bac_guess_command
        ⟨["a@x.com"], [("a@x.com", JVal.jarr [.jnum 0, .jnum 0, .jnum 0])]⟩
        "a@x.com"
        (some ⟨"a@x.com", ["Blue", "Green", "Orange", "Red"], 12, 96, [""], JVal.jstr ""⟩)
        ["Red", "Orange", "Green", "Blue"] =
      .ok (⟨["a@x.com"], [("a@x.com", JVal.jarr [.jnum 0, .jnum 0, .jnum 0])]⟩,
           some ⟨"a@x.com", ["Blue", "Green", "Orange", "Red"], 11, 92,
                 ["Red", "Orange", "Green", "Blue"],
                 JVal.jarr [.jnum 11, .jnum 92, .jnum 0, .jnum 4]⟩,
           JVal.jarr [.jnum 11, .jnum 92, .jnum 0, .jnum 4]) ∧
    bac_guess_command
        ⟨["a@x.com"], [("a@x.com", JVal.jarr [.jnum 0, .jnum 0, .jnum 0])]⟩
        "a@x.com"
        (some ⟨"a@x.com", ["Blue", "Green", "Orange", "Red"], 11, 92,
               ["Red", "Orange", "Green", "Blue"],
               JVal.jarr [.jnum 11, .jnum 92, .jnum 0, .jnum 4]⟩)
        ["Red", "Orange", "Green", "Blue"] =
      .ok (⟨["a@x.com"], [("a@x.com", JVal.jarr [.jnum 0, .jnum 0, .jnum 0])]⟩,
           some ⟨"a@x.com", ["Blue", "Green", "Orange", "Red"], 11, 92,
                 ["Red", "Orange", "Green", "Blue"],
                 JVal.jarr [.jnum 11, .jnum 92, .jnum 0, .jnum 4]⟩,
           JVal.jarr [.jnum 11, .jnum 92, .jnum 0, .jnum 4]) :=
  ⟨rfl, rfl, rfl⟩

/-- C8, counterexample: a caller who is not a member of the instance gets a
`ValueError` (from `check_player` inside `get_player_hand`) even when the
round argument is stale — not the non-error resynchronization payload the
claim promises for every stale-round call. -/
theorem C8_counterexample :
    submit_card_command
      ⟨["a@x.com", "b@x.com", "c@x.com"], [], "a@x.com",
       ["a@x.com", "b@x.com", "c@x.com"], 1, "char", [],
       some [("a@x.com", ["a1"]), ("b@x.com", ["x1", "x2"]), ("c@x.com", ["c1"])],
       some ["n1", "n2"], 0, []⟩
      "z@x.com" 0 "n1" = .error "z@x.com is not in instance" := rfl

/-- C8 (amended): for every `submit` call by a member of the instance whose
round argument differs from the current round, no error is raised, the
instance — hands, submissions, messages and all — is returned unchanged,
and the reply is the resynchronization payload carrying the stale-round
message, the caller's current hand, the current round and the current
characteristic card. -/
theorem C8_stale_round (i : AtaInstance) (p : String) (r : Int) (card : String)
    (hp : p ∈ i.players) (hr : r ≠ i.ata_round) :
    submit_card_command i p r card =
      .ok (i, JVal.jarr [.jstr staleSubmitMsg,
        .jarr (((dictGet (get_hand_dictionary i) p).getD []).map .jstr),
        .jnum i.ata_round, .jstr i.ata_char_card]) := by
  unfold submit_card_command
  rw [if_pos hr]
  unfold get_player_hand
  rw [if_pos hp, exbind_ok]

/-- Witness for C8 at concrete inputs: a member's stale-round submit
returns the untouched instance and their current hand. -/
theorem C8_stale_round_witness :
    submit_card_command
      ⟨["a@x.com", "b@x.com", "c@x.com"], [], "a@x.com",
       ["a@x.com", "b@x.com", "c@x.com"], 1, "char", [],
       some [("a@x.com", ["a1"]), ("b@x.com", ["x1", "x2"]), ("c@x.com", ["c1"])],
       some ["n1", "n2"], 0, []⟩
      "b@x.com" 0 "n1" =
      .ok (⟨["a@x.com", "b@x.com", "c@x.com"], [], "a@x.com",
            ["a@x.com", "b@x.com", "c@x.com"], 1, "char", [],
            some [("a@x.com", ["a1"]), ("b@x.com", ["x1", "x2"]), ("c@x.com", ["c1"])],
            some ["n1", "n2"], 0, []⟩,
           JVal.jarr [.jstr staleSubmitMsg,
             .jarr [.jstr "x1", .jstr "x2"], .jnum 1, .jstr "char"]) :=
  C8_stale_round
    ⟨["a@x.com", "b@x.com", "c@x.com"], [], "a@x.com",
     ["a@x.com", "b@x.com", "c@x.com"], 1, "char", [],
     some [("a@x.com", ["a1"]), ("b@x.com", ["x1", "x2"]), ("c@x.com", ["c1"])],
     some ["n1", "n2"], 0, []⟩
    "b@x.com" 0 "n1" (by decide) (by decide)

theorem digitChar_inj_lt : ∀ a < 10, ∀ b < 10, Nat.digitChar a = Nat.digitChar b → a = b := by
  decide

theorem map_digitChar_inj : ∀ (l₁ l₂ : List Nat), (∀ d ∈ l₁, d < 10) → (∀ d ∈ l₂, d < 10) →
    l₁.map Nat.digitChar = l₂.map Nat.digitChar → l₁ = l₂ := by
  intro l₁
  induction l₁ with
  | nil =>
    intro l₂ _ _ h
    cases l₂ with
    | nil => rfl
    | cons b t => exact absurd h (by simp)
  | cons a t ih =>
    intro l₂ h₁ h₂ h
    cases l₂ with
    | nil => exact absurd h (by simp)
    | cons b t₂ =>
      simp only [List.map_cons, List.cons.injEq] at h
      have ha := h₁ a (List.mem_cons_self a t)
      have hb := h₂ b (List.mem_cons_self b t₂)
      rw [digitChar_inj_lt a ha b hb h.1,
          ih t₂ (fun d hd => h₁ d (List.mem_cons_of_mem a hd))
             (fun d hd => h₂ d (List.mem_cons_of_mem b hd)) h.2]

theorem decimalStr_inj {m n : Nat} (hm : 0 < m) (hn : 0 < n)
    (h : decimalStr m = decimalStr n) : m = n := by
  unfold decimalStr at h
  rw [if_neg (by omega), if_neg (by omega)] at h
  have hd := congrArg String.data h
  simp only at hd
  rw [List.reverse_inj] at hd
  have hdig := map_digitChar_inj (Nat.digits 10 m) (Nat.digits 10 n)
    (fun d hd' => Nat.digits_lt_base' hd') (fun d hd' => Nat.digits_lt_base' hd') hd
  calc m = Nat.ofDigits 10 (Nat.digits 10 m) := (Nat.ofDigits_digits 10 m).symm
    _ = Nat.ofDigits 10 (Nat.digits 10 n) := by rw [hdig]
    _ = n := Nat.ofDigits_digits 10 n

theorem probeIid_mem {existing : List String} {pfx : String} :
    ∀ (fuel : Nat) (iid : String) (idx : Nat),
      probeIid existing pfx iid idx fuel ∈ existing →
      iid ∈ existing ∧ ∀ k < fuel, (pfx ++ decimalStr (idx + 1 + k)) ∈ existing := by
  intro fuel
  induction fuel with
  | zero =>
    intro iid idx h
    exact ⟨h, fun k hk => absurd hk (Nat.not_lt_zero k)⟩
  | succ fuel ih =>
    intro iid idx h
    unfold probeIid at h
    by_cases hin : iid ∈ existing
    · rw [if_pos hin] at h
      obtain ⟨h1, h2⟩ := ih _ _ h
      refine ⟨hin, fun k hk => ?_⟩
      cases k with
      | zero => exact h1
      | succ k =>
        have := h2 k (Nat.lt_of_succ_lt_succ hk)
        rw [show idx + 1 + (k + 1) = idx + 1 + 1 + k by omega]
        exact this
    · rw [if_neg hin] at h
      exact absurd h hin

theorem probeIid_not_mem (existing : List String) (pfx iid : String) (idx : Nat) :
    probeIid existing pfx iid idx (existing.length + 1) ∉ existing := by
  intro h
  obtain ⟨-, hall⟩ := probeIid_mem (existing.length + 1) iid idx h
  have hsub : ((List.range (existing.length + 1)).map
      (fun k => pfx ++ decimalStr (idx + 1 + k))) ⊆ existing := by
    intro x hx
    rw [List.mem_map] at hx
    obtain ⟨k, hk, rfl⟩ := hx
    exact hall k (List.mem_range.mp hk)
  have hnodup : ((List.range (existing.length + 1)).map
      (fun k => pfx ++ decimalStr (idx + 1 + k))).Nodup := by
    refine List.Nodup.map (fun a b hab => ?_) (List.nodup_range _)
    have hd : decimalStr (idx + 1 + a) = decimalStr (idx + 1 + b) := by
      have h2 := congrArg String.data hab
      rw [String.data_append, String.data_append] at h2
      exact String.ext (List.append_cancel_left h2)
    have := decimalStr_inj (by omega) (by omega) hd
    omega
  have hle := (List.Nodup.subperm hnodup hsub).length_le
  rw [List.length_map, List.length_range] at hle
  omega

theorem probeIid_shape (existing : List String) (pfx : String) :
    ∀ (fuel : Nat) (iid : String) (idx : Nat),
      probeIid existing pfx iid idx fuel = iid ∨
      (iid ∈ existing ∧ ∃ n, idx + 1 ≤ n ∧
        probeIid existing pfx iid idx fuel = pfx ++ decimalStr n ∧
        ∀ k, idx + 1 ≤ k → k < n → pfx ++ decimalStr k ∈ existing) := by
  intro fuel
  induction fuel with
  | zero => exact fun iid idx => .inl rfl
  | succ fuel ih =>
    intro iid idx
    by_cases hin : iid ∈ existing
    · rcases ih (pfx ++ decimalStr (idx + 1)) (idx + 1) with hL | ⟨hin', n, hn, hres, hmid⟩
      · refine .inr ⟨hin, idx + 1, Nat.le_refl _, ?_, fun k hk1 hk2 => absurd hk2 (by omega)⟩
        unfold probeIid
        rw [if_pos hin]
        exact hL
      · refine .inr ⟨hin, n, by omega, ?_, fun k hk1 hk2 => ?_⟩
        · unfold probeIid
          rw [if_pos hin]
          exact hres
        · rcases Nat.eq_or_lt_of_le hk1 with heq | hlt
          · rw [← heq]
            exact hin'
          · exact hmid k (by omega) hk2
    · left
      unfold probeIid
      rw [if_neg hin]

/-- C9: the id produced by `get_new_instance` never collides with an
existing instance id of the game; a desired id that is itself free is
returned unchanged (after space stripping); and a colliding desired id is
deterministically extended with a numeric suffix obtained by probing
upward from just above the incremented instance counter until an unused id
is found (every skipped suffix was in use). -/
theorem C9_get_new_instance_id (existing : List String) (iidDesired : String)
    (count : Nat) :
    (get_new_instance_id existing iidDesired count).1 ∉ existing ∧
    (stripSpaces iidDesired ∉ existing →
      (get_new_instance_id existing iidDesired count).1 = stripSpaces iidDesired) ∧
    (stripSpaces iidDesired ∈ existing →
      ∃ n, count + 2 ≤ n ∧
        (get_new_instance_id existing iidDesired count).1 =
          stripSpaces iidDesired ++ decimalStr n ∧
        ∀ k, count + 2 ≤ k → k < n → stripSpaces iidDesired ++ decimalStr k ∈ existing) := by
  refine ⟨probeIid_not_mem existing _ _ _, fun hfree => ?_, fun hcoll => ?_⟩
  · unfold get_new_instance_id probeIid
    rw [if_neg hfree]
  · rcases probeIid_shape existing (stripSpaces iidDesired) (existing.length + 1)
      (stripSpaces iidDesired) (count + 1) with hL | ⟨-, n, hn, hres, hmid⟩
    · exfalso
      have := probeIid_not_mem existing (stripSpaces iidDesired) (stripSpaces iidDesired) (count + 1)
      rw [hL] at this
      exact this hcoll
    · exact ⟨n, by omega, hres, fun k hk1 hk2 => hmid k (by omega) hk2⟩

/-- Witness for C9 at concrete inputs: a free desired id is kept; a
colliding one is suffixed away from all existing ids. -/
theorem C9_get_new_instance_id_witness :
    (get_new_instance_id ["iid", "iid2"] "iid" 0).1 ∉ ["iid", "iid2"] ∧
    (get_new_instance_id ["other"] "iid" 0).1 = "iid" :=
  ⟨(C9_get_new_instance_id ["iid", "iid2"] "iid" 0).1,
   (C9_get_new_instance_id ["other"] "iid" 0).2.1 (by decide)⟩

theorem pCls_suffix {p : Char → Bool} {s r : List Char} (h : r ∈ pCls p s) : r <:+ s := by
  cases s with
  | nil => exact absurd h (List.not_mem_nil r)
  | cons c t =>
    simp only [pCls] at h
    split at h
    · rw [List.mem_singleton] at h
      rw [h]
      exact ⟨[c], rfl⟩
    · exact absurd h (List.not_mem_nil r)

theorem pPlusCls_suffix {p : Char → Bool} {s r : List Char} (h : r ∈ pPlusCls p s) :
    r <:+ s := by
  unfold pPlusCls at h
  rw [List.mem_map] at h
  obtain ⟨k, -, rfl⟩ := h
  exact List.drop_suffix _ _

theorem pRepCls_suffix {p : Char → Bool} {lo hi : Nat} {s r : List Char}
    (h : r ∈ pRepCls p lo hi s) : r <:+ s := by
  simp only [pRepCls] at h
  split at h
  · exact absurd h (List.not_mem_nil r)
  · rw [List.mem_map] at h
    obtain ⟨k, -, rfl⟩ := h
    exact List.drop_suffix _ _

theorem flatMap_ne_nil {α β : Type} {l : List α} {g : α → List β}
    (h : l.flatMap g ≠ []) : ∃ x ∈ l, g x ≠ [] := by
  by_contra hc
  push_neg at hc
  exact h (List.flatMap_eq_nil_iff.mpr hc)

theorem pSeq_ne_nil {f g : List Char → List (List Char)} {s : List Char}
    (h : pSeq f g s ≠ []) : ∃ r, r ∈ f s ∧ g r ≠ [] := by
  unfold pSeq at h
  obtain ⟨x, hx, hgx⟩ := flatMap_ne_nil h
  exact ⟨x, hx, hgx⟩

theorem pSeq_suffix {f g : List Char → List (List Char)}
    (hf : ∀ s r, r ∈ f s → r <:+ s) (hg : ∀ s r, r ∈ g s → r <:+ s) :
    ∀ s r, r ∈ pSeq f g s → r <:+ s := by
  intro s r h
  unfold pSeq at h
  rw [List.mem_flatMap] at h
  obtain ⟨r1, h1, h2⟩ := h
  exact (hg r1 r h2).trans (hf s r1 h1)

theorem pStarAux_suffix {f : List Char → List (List Char)}
    (hf : ∀ s r, r ∈ f s → r <:+ s) :
    ∀ (fuel : Nat) (s r : List Char), r ∈ pStarAux f fuel s → r <:+ s := by
  intro fuel
  induction fuel with
  | zero =>
    intro s r h
    unfold pStarAux at h
    rw [List.mem_singleton] at h
    rw [h]
  | succ fuel ih =>
    intro s r h
    unfold pStarAux at h
    rw [List.mem_append] at h
    rcases h with h | h
    · rw [List.mem_flatMap] at h
      obtain ⟨r1, h1, h2⟩ := h
      exact (ih r1 r h2).trans (hf s r1 h1)
    · rw [List.mem_singleton] at h
      rw [h]

theorem pStar_suffix {f : List Char → List (List Char)}
    (hf : ∀ s r, r ∈ f s → r <:+ s) :
    ∀ (s r : List Char), r ∈ pStar f s → r <:+ s :=
  fun s r h => pStarAux_suffix hf _ s r h

theorem emailMatchRem_at {s : List Char} (h : emailMatchRem s ≠ []) : '@' ∈ s := by
  unfold emailMatchRem at h
  obtain ⟨r1, hr1, h1⟩ := pSeq_ne_nil h
  obtain ⟨r2, hr2, h2⟩ := pSeq_ne_nil h1
  obtain ⟨r3, hr3, -⟩ := pSeq_ne_nil h2
  have hat : '@' ∈ r2 := by
    cases r2 with
    | nil => exact absurd hr3 (List.not_mem_nil r3)
    | cons c t =>
      simp only [pCls] at hr3
      split at hr3
      · rename_i hc
        rw [show c = '@' from of_decide_eq_true hc]
        exact List.mem_cons_self '@' t
      · exact absurd hr3 (List.not_mem_nil r3)
  have hs1 : r1 <:+ s :=
    pStar_suffix (pSeq_suffix (fun _ _ => pPlusCls_suffix) (fun _ _ => pCls_suffix)) s r1 hr1
  have hs2 : r2 <:+ r1 := pPlusCls_suffix hr2
  exact (hs2.trans hs1).subset hat

theorem emailMatch_at {s m : List Char} (h : emailMatch s = some m) : '@' ∈ s := by
  unfold emailMatch at h
  apply emailMatchRem_at
  intro hnil
  rw [hnil] at h
  exact absurd h (by simp)

theorem emailSearch_eq_none {s : List Char} (h : '@' ∉ s) : emailSearch s = none := by
  induction s with
  | nil => rfl
  | cons c t ih =>
    unfold emailSearch
    cases hm : emailMatch (c :: t) with
    | some m => exact absurd (emailMatch_at hm) h
    | none => exact ih (fun hmem => h (List.mem_cons_of_mem c hmem))

/-- C10: with an instance at hand, a pid equal to `'leader'` ignoring case
is not treated as a malformed player id: it is resolved through the
instance's current leader (and, the leader being a clean email address,
returns exactly that address); without an instance the same string is
rejected with a `ValueError` because it matches no email pattern (it
contains no `'@'`). -/
theorem C10_check_playerid_leader :
    (∀ (inst : GameInstance) (pid : String),
        strLower pid = "leader" →
        emailSearch inst.leader.data = some inst.leader.data →
        check_playerid (some inst) pid = .ok inst.leader) ∧
    (∀ pid : String, strLower pid = "leader" →
        check_playerid none pid =
          .error (pid ++ " is not a valid email address.")) := by
  constructor
  · intro inst pid hlow hsearch
    unfold check_playerid
    dsimp only
    rw [if_pos hlow]
    by_cases hb : inst.leader = ""
    · rw [hb] at hsearch
      exact absurd hsearch (by decide)
    · rw [if_neg hb, hsearch]
  · intro pid hlow
    unfold check_playerid
    dsimp only
    have hne : pid ≠ "" := by
      intro h0
      rw [h0] at hlow
      exact absurd hlow (by decide)
    rw [if_neg hne]
    have hat : '@' ∉ pid.data := by
      intro hmem
      have h2 : '@' ∈ (strLower pid).data :=
        List.mem_map.mpr ⟨'@', hmem, by decide⟩
      rw [hlow] at h2
      exact absurd h2 (by decide)
    rw [emailSearch_eq_none hat]

/-- Witness for C10 at concrete inputs: `"LeAdEr"` resolves to the leader's
email with an instance, and `"leader"` is rejected without one. -/
theorem C10_check_playerid_leader_witness :
    check_playerid (some (new_game_instance "a@x.com" false)) "LeAdEr" = .ok "a@x.com" ∧
    check_playerid none "leader" = .error "leader is not a valid email address." :=
  ⟨C10_check_playerid_leader.1 (new_game_instance "a@x.com" false) "LeAdEr" rfl rfl,
   C10_check_playerid_leader.2 "leader" rfl⟩
